import Mathlib

/-!
Verification of the agentops-hub run-execution pipeline.

Shallow embedding of the Python backend (src/backend/app), covering:
the tool invocation gateway (app/ai/tool_registry.py), the run
orchestrator (app/ai/runner.py), the dispatcher guards
(app/services/run_service.py), the conversation provider
(app/services/conversation_service.py), and the live status stream
(app/api/v1/streaming.py).

Modelling conventions: machine state (runs, steps, conversations,
messages) is explicit; each SQLAlchemy commit appends to an effect
trace so that ordering of side effects is provable.  External,
non-deterministic computations (agent construction, the reasoning
loop, HTTP transport, storage query execution) are oracle parameters
whose "Except.error" constructor stands for a raised Python exception.
Persistence primitives themselves (log_step inserts, commits) are
modelled as always succeeding.
-/

namespace AgentOps

/-! ## Python dictionaries
Keyword-argument maps are association lists; "dictMerge a b" models the
Python expression with a double-splat of a then b into one dict literal:
all keys of both maps, and on a key present in both, the value of b wins. -/

inductive PyVal where
  | vStr (s : String)
  | vInt (n : Int)
  | vDb
  | vNone
  deriving DecidableEq, Repr

abbrev Dict (V : Type) := List (String × V)

def dictLookup {V : Type} (d : Dict V) (k : String) : Option V :=
  (d.find? (fun p => p.1 == k)).map (fun p => p.2)

def dictMerge {V : Type} (a b : Dict V) : Dict V :=
  (a.filter (fun p => (dictLookup b p.1).isNone)) ++ b

/-! ## String helpers for the SQL policy -/

def listHasPre : List Char → List Char → Bool
  | [], _ => true
  | _ :: _, [] => false
  | a :: as, b :: bs => a == b && listHasPre as bs

def listHasSub (needle : List Char) : List Char → Bool
  | [] => needle.isEmpty
  | c :: rest => listHasPre needle (c :: rest) || listHasSub needle rest

/-- Python substring containment: needle occurs somewhere in haystack. -/
def strContainsSub (haystack needle : String) : Bool :=
  listHasSub needle.data haystack.data

/-- Python str.upper, character by character. -/
def pyUpper (s : String) : String :=
  ⟨s.data.map Char.toUpper⟩

/-! ## sql_query_handler (src/backend/app/ai/tool_registry.py, lines 163-195) -/

/-- The dangerous-keyword list of sql_query_handler, verbatim. -/
def sqlDangerous : List String :=
  ["insert", "update", "delete", "drop", "alter", "create", "truncate"]

inductive SqlResult (Row : Type) where
  | errRes (msg : String)
  | rowsRes (rows : List Row) (count : Nat)
  deriving DecidableEq

/-- Embedding of sql_query_handler.  dbExec stands for db.execute, with
".error" modelling a raised exception.  The second component of the result
is the list of queries actually sent to storage (empty on the two
rejection paths, which return before db.execute is reached). -/
def sqlQueryHandler {Row : Type} (dbExec : String → Except String (List Row))
    (query : String) : SqlResult Row × List String :=
  let queryLower := query.trim.toLower
  if !(queryLower.startsWith "select") then
    (.errRes "Only SELECT queries are allowed", [])
  else if sqlDangerous.any (fun k => strContainsSub queryLower k) then
    (.errRes "Query contains forbidden keywords", [])
  else
    match dbExec query with
    | .ok rows => (.rowsRes rows rows.length, [query])
    | .error e => (.errRes ("SQL query failed: " ++ e), [query])

/-! ## execute_tool (src/backend/app/ai/tool_registry.py, lines 315-342) -/

inductive ToolOut (A : Type) where
  | errEnv (msg : String)
  | payload (a : A)
  deriving DecidableEq

/-- A registry entry as Python calls it: handler with a double-splat of
kwargs.  ".error e" models an exception escaping the call (a missing
required argument, or any failure the handler body does not catch). -/
abbrev Handler (V A : Type) := Dict V → Except String (ToolOut A)

/-- Embedding of execute_tool.  The result type has no exception channel:
the gateway never raises.  Unknown names and escaping handler exceptions
are converted to error envelopes. -/
def executeTool {V A : Type} (handlers : String → Option (Handler V A))
    (toolName : String) (arguments context : Dict V) : ToolOut A :=
  match handlers toolName with
  | none => .errEnv ("Unknown tool: " ++ toolName)
  | some handler =>
    match handler (dictMerge arguments context) with
    | .ok r => r
    | .error e => .errEnv ("Tool execution failed: " ++ e)

/-! ## http_fetch_handler (src/backend/app/ai/tool_registry.py, lines 198-235) -/

structure HttpResp (A : Type) where
  statusCode : Nat
  data : A
  deriving DecidableEq

/-- Embedding of http_fetch_handler.  transport models the httpx client
call (method, url, headers, body); ".error" is a raised transport
exception, caught by the handler's own try and converted to an envelope. -/
def httpFetchHandler {V A : Type}
    (transport : String → String → Option V → Option V → Except String (HttpResp A))
    (url method : String) (headers body : Option V) : ToolOut (HttpResp A) :=
  if pyUpper method == "GET" then
    match transport "GET" url headers none with
    | .ok resp => .payload resp
    | .error e => .errEnv ("HTTP request failed: " ++ e)
  else if pyUpper method == "POST" then
    match transport "POST" url headers body with
    | .ok resp => .payload resp
    | .error e => .errEnv ("HTTP request failed: " ++ e)
  else
    .errEnv ("Unsupported method: " ++ method)

/-! ## file_fetch_handler (src/backend/app/ai/tool_registry.py, lines 238-278) -/

structure DocRow where
  id : Nat
  userId : Nat
  filename : String
  filePath : String
  fileSize : Nat
  processed : Bool
  deriving DecidableEq

inductive FileRes where
  | errRes (msg : String)
  | okRes (filename content : String) (sizeBytes : Nat) (processed : Bool)
  deriving DecidableEq

/-- Embedding of file_fetch_handler.  docs is the Document table; fs maps a
file path to "none" (os.path.exists false), "some (.error e)" (open or read
raised e, caught by the handler's try) or "some (.ok content)". -/
def fileFetchHandler (docs : List DocRow) (fs : String → Option (Except String String))
    (userId docId : Nat) : FileRes :=
  match docs.find? (fun d => d.id == docId && d.userId == userId) with
  | none => .errRes "Document not found or access denied"
  | some doc =>
    match fs doc.filePath with
    | none => .errRes "File not found on disk"
    | some (.error e) => .errRes ("File fetch failed: " ++ e)
    | some (.ok content) => .okRes doc.filename content doc.fileSize doc.processed

/-! ## The trusted context built by build_agent
(src/backend/app/ai/agent_builder.py, lines 51-60): each tool closure calls
execute_tool with the LLM-chosen kwargs and this fixed context. -/

def buildAgentContext (userId agentId : Int) : Dict PyVal :=
  [("user_id", .vInt userId), ("agent_id", .vInt agentId), ("db", .vDb)]

/-! ## Persistent state: runs, steps, conversations, messages, agents
(src/backend/app/models).  Timestamps are abstract Nat instants.  Every
commit appends an effect to the trace so ordering of side effects is
observable in the model. -/

inductive RunStatus where
  | pending
  | running
  | completed
  | failed
  deriving DecidableEq, Repr

inductive StepType where
  | llmCall
  | toolCall
  | toolResult
  | error
  | finalAnswer
  deriving DecidableEq, Repr

structure RunRow where
  id : Nat
  userId : Nat
  agentId : Nat
  conversationId : Option Nat
  inputText : String
  status : RunStatus
  outputText : Option String
  errorMessage : Option String
  startedAt : Option Nat
  completedAt : Option Nat
  deriving DecidableEq, Repr

structure StepRow where
  runId : Nat
  stepOrder : Nat
  stepType : StepType
  inputData : Option (List (String × String))
  outputData : Option (List (String × String))
  toolName : Option String
  errorMessage : Option String
  durationMs : Option Nat
  deriving DecidableEq, Repr

structure ConvRow where
  id : Nat
  userId : Nat
  deriving DecidableEq, Repr

structure MsgRow where
  conversationId : Nat
  role : String
  content : String
  deriving DecidableEq, Repr

structure AgentRow where
  id : Nat
  userId : Nat
  deriving DecidableEq, Repr

inductive Eff where
  | runCommit (runId : Nat) (status : RunStatus)
  | stepInsert (runId stepOrder : Nat) (stepType : StepType)
  | msgInsert (conversationId : Nat) (role content : String)
  deriving DecidableEq, Repr

structure DB where
  runs : List RunRow
  steps : List StepRow
  conversations : List ConvRow
  messages : List MsgRow
  agents : List AgentRow
  trace : List Eff
  deriving DecidableEq, Repr

def findRun (db : DB) (runId : Nat) : Option RunRow :=
  db.runs.find? (fun r => r.id == runId)

/-- Mutate the run row in place and commit (one ORM mutation + db.commit). -/
def commitRun (db : DB) (runId : Nat) (f : RunRow → RunRow) : DB :=
  { db with
    runs := db.runs.map (fun r => if r.id == runId then f r else r),
    trace := db.trace ++ ((findRun db runId).map (fun r => Eff.runCommit runId (f r).status)).toList }

/-- Embedding of log_step (src/backend/app/ai/runner.py, lines 202-245):
insert one RunStep row and commit. -/
def logStep (db : DB) (runId stepOrder : Nat) (stepType : StepType)
    (inputData outputData : Option (List (String × String)))
    (toolName errorMessage : Option String) (durationMs : Option Nat) : DB :=
  { db with
    steps := db.steps ++
      [⟨runId, stepOrder, stepType, inputData, outputData, toolName, errorMessage, durationMs⟩],
    trace := db.trace ++ [.stepInsert runId stepOrder stepType] }

def runStepsOf (db : DB) (runId : Nat) : List StepRow :=
  db.steps.filter (fun s => s.runId == runId)

def messagesOf (db : DB) (conversationId : Nat) : List MsgRow :=
  db.messages.filter (fun m => m.conversationId == conversationId)

/-! ## Conversation service (src/backend/app/services/conversation_service.py) -/

def getConversation (db : DB) (conversationId userId : Nat) : Option ConvRow :=
  db.conversations.find? (fun c => c.id == conversationId && c.userId == userId)

/-- Embedding of get_conversation_history: empty for a conversation that
does not exist or is not owned by the caller, else the ordered
(role, content) pairs of its messages. -/
def getConversationHistory (db : DB) (conversationId userId : Nat) : List (String × String) :=
  match getConversation db conversationId userId with
  | none => []
  | some _ =>
    (db.messages.filter (fun m => m.conversationId == conversationId)).map
      (fun m => (m.role, m.content))

/-- State after one message insert plus commit. -/
def withMessage (db : DB) (conversationId : Nat) (role content : String) : DB :=
  { db with
    messages := db.messages ++ [⟨conversationId, role, content⟩],
    trace := db.trace ++ [.msgInsert conversationId role content] }

/-- Embedding of add_message: raises (models HTTPException 404) when the
conversation does not exist or is not owned by the caller. -/
def addMessage (db : DB) (conversationId userId : Nat) (role content : String) :
    Except String DB :=
  match getConversation db conversationId userId with
  | none => .error "404: Conversation not found"
  | some _ => .ok (withMessage db conversationId role content)

/-! ## execute_run (src/backend/app/ai/runner.py, lines 25-199) -/

/-- History prefix folded into the task text: the last 10 messages as
role-labelled lines (runner.py lines 110-114). -/
def formatHistory (msgs : List (String × String)) : String :=
  String.intercalate "\n\n"
    ((msgs.drop (msgs.length - 10)).map (fun m => pyUpper m.1 ++ ": " ++ m.2))

def buildFullInput (history : List (String × String)) (inputText : String) : String :=
  if history.isEmpty then inputText
  else
    "Previous conversation:\n" ++ formatHistory history ++ "\n\nCurrent query:\n" ++ inputText

/-- The inner except branch of execute_run (lines 164-180): log an ERROR
step at the current step_order, then commit the run as FAILED. -/
def failFinishInner (db : DB) (runId stepOrder : Nat) (e : String) (tEnd : Nat) : DB :=
  commitRun (logStep db runId stepOrder .error none none none (some e) none) runId
    (fun r => { r with status := .failed, errorMessage := some e, completedAt := some tEnd })

/-- The outer except branch of execute_run (lines 182-199): commit the run
as FAILED with a Fatal-error message first, then log an ERROR step. -/
def failFinishFatal (db : DB) (runId stepOrder : Nat) (e : String) (tEnd : Nat) : DB :=
  logStep
    (commitRun db runId
      (fun r =>
        { r with status := .failed, errorMessage := some ("Fatal error: " ++ e),
                 completedAt := some tEnd }))
    runId stepOrder .error none none none (some e) none

/-- The success tail of execute_run (lines 147-162): log the FINAL_ANSWER
step with the answer and duration, then commit the run as COMPLETED. -/
def successFinish (db : DB) (runId stepOrder : Nat) (outputText : String)
    (durationMs tEnd : Nat) : DB :=
  commitRun
    (logStep db runId stepOrder .finalAnswer none (some [("answer", outputText)])
      none none (some durationMs))
    runId
    (fun r =>
      { r with status := .completed, outputText := some outputText, completedAt := some tEnd })

/-- The part of execute_run after the input step is logged (runner.py
lines 95-199): agent construction, loop execution, conversation
persistence and the terminal commit.  db3 is the state after the input
step, so the next step_order; failures from add_message are caught by the
same inner handler as loop failures. -/
def executeRunTail (buildRes : Except String Unit)
    (agentRun : String → Except String String) (fullInput : String)
    (tEnd durationMs runId : Nat) (inputText : String) (userId : Nat)
    (conversationId : Option Nat) (db3 : DB) (so : Nat) : DB :=
  match buildRes with
  | .error e => failFinishFatal db3 runId so e tEnd
  | .ok _ =>
    match agentRun fullInput with
    | .error e => failFinishInner db3 runId so e tEnd
    | .ok outputText =>
      let stageB : DB × Option String :=
        match conversationId with
        | none => (db3, none)
        | some cid =>
          match addMessage db3 cid userId "user" inputText with
          | .error e => (db3, some e)
          | .ok dbA =>
            match addMessage dbA cid userId "assistant" outputText with
            | .error e => (dbA, some e)
            | .ok dbB => (dbB, none)
      match stageB.2 with
      | some e => failFinishInner stageB.1 runId so e tEnd
      | none => successFinish stageB.1 runId so outputText durationMs tEnd

/-- Embedding of execute_run.  buildRes is the outcome of
agent_builder.build_agent, agentRun the outcome of the reasoning loop on
the full (history-prefixed) input; ".error" models a raised exception.
The function returns ".error" only when the run row does not exist (the
AttributeError on the None row escapes both handlers). -/
def executeRun (buildRes : Except String Unit) (agentRun : String → Except String String)
    (tStart tEnd durationMs : Nat) (runId : Nat) (inputText : String)
    (db0 : DB) (userId : Nat) (conversationId : Option Nat) : Except String DB :=
  match findRun db0 runId with
  | none => .error "AttributeError: run is None"
  | some _ =>
    let db1 := commitRun db0 runId
      (fun r => { r with status := .running, startedAt := some tStart })
    let historyMessages :=
      match conversationId with
      | some cid => getConversationHistory db1 cid userId
      | none => []
    let stageA : DB × Nat :=
      if historyMessages.isEmpty then (db1, 0)
      else
        (logStep db1 runId 0 .llmCall
          (some [("conversation_history",
            "Loaded " ++ toString historyMessages.length ++ " previous messages")])
          none none none none, 1)
    let db3 := logStep stageA.1 runId stageA.2 .llmCall (some [("user_input", inputText)])
      none none none none
    .ok (executeRunTail buildRes agentRun (buildFullInput historyMessages inputText)
      tEnd durationMs runId inputText userId conversationId db3 (stageA.2 + 1))

/-! ## execute_run_async (src/backend/app/services/run_service.py, lines 71-107) -/

/-- Embedding of execute_run_async: missing run returns with no mutation;
missing agent commits FAILED with the literal message and returns before
any step is recorded; otherwise delegates to execute_run. -/
def executeRunAsync (buildRes : Except String Unit)
    (agentRun : String → Except String String) (tStart tEnd durationMs : Nat)
    (runId : Nat) (db0 : DB) : Except String DB :=
  match findRun db0 runId with
  | none => .ok db0
  | some run =>
    match db0.agents.find? (fun a => a.id == run.agentId) with
    | none =>
      .ok (commitRun db0 runId
        (fun r => { r with status := .failed, errorMessage := some "Agent not found" }))
    | some _ =>
      executeRun buildRes agentRun tStart tEnd durationMs runId run.inputText db0
        run.userId run.conversationId

/-! ## stream_run_execution (src/backend/app/api/v1/streaming.py, lines 17-68)
The poll loop re-reads the run once per second; snap n is the state the
n-th poll observes.  Only streams over an existing, caller-owned run are
modelled (the not-found branch returns one error event before the loop). -/

structure Snapshot where
  status : RunStatus
  outputText : Option String
  errorMessage : Option String
  deriving DecidableEq, Repr

inductive SEvent where
  | statusEv (status : RunStatus)
  | completeEv (output : Option String)
  | errorEv (msg : Option String)
  | heartbeatEv (pollCount : Nat)
  | timeoutEv
  deriving DecidableEq, Repr

def isTerminal (s : RunStatus) : Bool :=
  s == .completed || s == .failed

/-- The terminal event the loop emits on observing a terminal snapshot. -/
def termEventOf (s : Snapshot) : SEvent :=
  if s.status == .completed then .completeEv s.outputText else .errorEv s.errorMessage

def maxPolls : Nat := 120

/-- The while loop of stream_run_execution, fuel = max_polls minus the
current poll_count.  Returns the emitted events and the final poll_count
(the loop body increments poll_count, refreshes the run, emits a status
event on change, a terminal event with break on COMPLETED/FAILED, else a
heartbeat on every 10th poll). -/
def runPolls (snap : Nat → Snapshot) : Nat → RunStatus → Nat → List SEvent × Nat
  | 0, _, pollCount => ([], pollCount)
  | fuel + 1, lastStatus, pollCount =>
    let pc := pollCount + 1
    let s := snap pc
    let changed : List SEvent :=
      if s.status ≠ lastStatus then [.statusEv s.status] else []
    if s.status == .completed then (changed ++ [.completeEv s.outputText], pc)
    else if s.status == .failed then (changed ++ [.errorEv s.errorMessage], pc)
    else
      let hb : List SEvent := if pc % 10 == 0 then [.heartbeatEv pc] else []
      let next := runPolls snap fuel s.status pc
      (changed ++ hb ++ next.1, next.2)

/-- Embedding of stream_run_execution for an existing run whose pre-loop
snapshot is run0: the initial status event, the loop's events, and a
timeout event when the loop left poll_count at max_polls. -/
def streamRunExecution (snap : Nat → Snapshot) (run0 : Snapshot) : List SEvent :=
  let looped := runPolls snap maxPolls run0.status 0
  [.statusEv run0.status] ++ looped.1 ++
    (if looped.2 ≥ maxPolls then [.timeoutEv] else [])

/-- The first poll (1-based) at which a terminal status is observed, or
maxPolls + 1 when none of the maxPolls polls observes one. -/
def firstTerm (snap : Nat → Snapshot) : Nat :=
  match (List.range' 1 maxPolls).find? (fun n => isTerminal (snap n).status) with
  | some k => k
  | none => maxPolls + 1

def hbPolls (events : List SEvent) : List Nat :=
  events.filterMap (fun e => match e with | .heartbeatEv n => some n | _ => none)

/-- Events the spec requires consumers to treat as stream-closing. -/
def isClosing : SEvent → Bool
  | .completeEv _ => true
  | .errorEv _ => true
  | .timeoutEv => true
  | _ => false

/-! ## Lemmas about dictionary merging -/

theorem dictMerge_cons_kept {V : Type} (pk : String) (pv : V) (a b : Dict V)
    (hb : (dictLookup b pk).isNone = true) :
    dictMerge ((pk, pv) :: a) b = (pk, pv) :: dictMerge a b := by
  simp [dictMerge, List.filter_cons, hb]

theorem dictMerge_cons_dropped {V : Type} (pk : String) (pv : V) (a b : Dict V)
    (hb : (dictLookup b pk).isNone = false) :
    dictMerge ((pk, pv) :: a) b = dictMerge a b := by
  simp [dictMerge, List.filter_cons, hb]

theorem dictLookup_cons {V : Type} (pk : String) (pv : V) (d : Dict V) (k : String) :
    dictLookup ((pk, pv) :: d) k = if pk == k then some pv else dictLookup d k := by
  by_cases hk : (pk == k) = true
  · simp [dictLookup, List.find?, hk]
  · rw [Bool.not_eq_true] at hk
    simp [dictLookup, List.find?, hk]

theorem dictLookup_merge {V : Type} (a b : Dict V) (k : String) (v : V)
    (h : dictLookup b k = some v) : dictLookup (dictMerge a b) k = some v := by
  induction a with
  | nil => simpa [dictMerge] using h
  | cons p a ih =>
    rcases p with ⟨pk, pv⟩
    cases hb : (dictLookup b pk).isNone with
    | true =>
      rw [dictMerge_cons_kept pk pv a b hb, dictLookup_cons]
      have hpk : (pk == k) = false := by
        by_contra hc
        rw [Bool.not_eq_false, beq_iff_eq] at hc
        subst hc
        rw [h] at hb
        simp at hb
      rw [hpk]
      simpa using ih
    | false =>
      rw [dictMerge_cons_dropped pk pv a b hb]
      exact ih

/-- C3: sql_query rejects, before touching storage, every query that does
not begin (trimmed, case-insensitively) with select, and every query whose
lowercased text contains a dangerous keyword anywhere; every other query
is executed and returned as rows with a count, or as a structured error
when execution raises. -/
theorem sql_query_select_only_policy {Row : Type}
    (dbExec : String → Except String (List Row)) (query : String) :
    (¬ query.trim.toLower.startsWith "select" = true →
      sqlQueryHandler dbExec query = (.errRes "Only SELECT queries are allowed", [])) ∧
    (sqlDangerous.any (fun k => strContainsSub query.trim.toLower k) = true →
      (sqlQueryHandler dbExec query).2 = [] ∧
      ∃ m, (sqlQueryHandler dbExec query).1 = .errRes m) ∧
    (query.trim.toLower.startsWith "select" = true →
      sqlDangerous.any (fun k => strContainsSub query.trim.toLower k) = false →
      sqlQueryHandler dbExec query =
        (match dbExec query with
         | .ok rows => (.rowsRes rows rows.length, [query])
         | .error e => (.errRes ("SQL query failed: " ++ e), [query]))) := by
  refine ⟨fun h1 => ?_, fun h2 => ?_, fun h1 h2 => ?_⟩
  · simp [sqlQueryHandler, h1]
  · by_cases hs : query.trim.toLower.startsWith "select" = true
    · simp [sqlQueryHandler, hs, h2]
    · simp [sqlQueryHandler, hs]
  · simp [sqlQueryHandler, h1, h2]

/-- C4: execute_tool is a total function into the result-envelope type (its
type has no exception channel, so it never raises): an unknown tool name
yields the unknown-tool envelope, an exception escaping a handler yields
the tool-execution-failed envelope, a handler result is passed through,
and an HTTP transport exception inside http_fetch is caught by the handler
itself and returned as an error envelope. -/
theorem execute_tool_never_raises {V A : Type} (handlers : String → Option (Handler V A))
    (toolName : String) (arguments context : Dict V) :
    (handlers toolName = none →
      executeTool handlers toolName arguments context =
        .errEnv ("Unknown tool: " ++ toolName)) ∧
    (∀ h e, handlers toolName = some h → h (dictMerge arguments context) = .error e →
      executeTool handlers toolName arguments context =
        .errEnv ("Tool execution failed: " ++ e)) ∧
    (∀ h r, handlers toolName = some h → h (dictMerge arguments context) = .ok r →
      executeTool handlers toolName arguments context = r) ∧
    (∀ (transport : String → String → Option V → Option V → Except String (HttpResp A))
        (url : String) (headers body : Option V) (e : String),
      (transport "GET" url headers none = .error e →
        httpFetchHandler transport url "GET" headers body =
          .errEnv ("HTTP request failed: " ++ e)) ∧
      (transport "POST" url headers body = .error e →
        httpFetchHandler transport url "POST" headers body =
          .errEnv ("HTTP request failed: " ++ e))) := by
  refine ⟨fun h0 => ?_, fun h e hh he => ?_, fun h r hh hr => ?_,
    fun transport url headers body e => ⟨fun ht => ?_, fun ht => ?_⟩⟩
  · simp [executeTool, h0]
  · simp [executeTool, hh, he]
  · simp [executeTool, hh, hr]
  · have hg : pyUpper "GET" = "GET" := by decide
    simp [httpFetchHandler, hg, ht]
  · have hp : pyUpper "POST" = "POST" := by decide
    have hpg : ¬ pyUpper "POST" = "GET" := by rw [hp]; decide
    simp [httpFetchHandler, hp, hpg, ht]

/-- C8: file_fetch answers with one and the same not-found envelope both
when no document with the requested id exists and when such a document
exists but belongs to a different user, so the caller cannot distinguish
the two situations. -/
theorem file_fetch_owner_isolation
    (docs docsA docsB : List DocRow) (fs fsA fsB : String → Option (Except String String))
    (userId docId : Nat) :
    ((∀ d ∈ docs, d.id = docId → d.userId ≠ userId) →
      fileFetchHandler docs fs userId docId =
        .errRes "Document not found or access denied") ∧
    ((∀ d ∈ docsA, d.id ≠ docId) →
      (∀ d ∈ docsB, d.id = docId → d.userId ≠ userId) →
      fileFetchHandler docsA fsA userId docId = fileFetchHandler docsB fsB userId docId) := by
  have key : ∀ (l : List DocRow) (g : String → Option (Except String String)),
      (∀ d ∈ l, d.id = docId → d.userId ≠ userId) →
      fileFetchHandler l g userId docId = .errRes "Document not found or access denied" := by
    intro l g hl
    have hnone : l.find? (fun d => d.id == docId && d.userId == userId) = none := by
      rw [List.find?_eq_none]
      intro d hd
      by_cases hid : d.id = docId
      · simp [hid, hl d hd hid]
      · simp [hid]
    simp [fileFetchHandler, hnone]
  refine ⟨key docs fs, fun hA hB => ?_⟩
  rw [key docsA fsA (fun d hd hid => absurd hid (hA d hd)), key docsB fsB hB]

/-- C9: for a tool dispatched from an agent built by build_agent, the
trusted execution context wins every key collision with the LLM-supplied
arguments in the merged kwargs, so the handler always receives the trusted
user_id, agent_id and db handle, and the gateway invokes the handler on
exactly that merged map. -/
theorem context_overrides_llm_arguments {A : Type}
    (handlers : String → Option (Handler PyVal A)) (userId agentId : Int)
    (toolName : String) (arguments : Dict PyVal) :
    (∀ k v, dictLookup (buildAgentContext userId agentId) k = some v →
      dictLookup (dictMerge arguments (buildAgentContext userId agentId)) k = some v) ∧
    dictLookup (dictMerge arguments (buildAgentContext userId agentId)) "user_id"
      = some (.vInt userId) ∧
    dictLookup (dictMerge arguments (buildAgentContext userId agentId)) "agent_id"
      = some (.vInt agentId) ∧
    dictLookup (dictMerge arguments (buildAgentContext userId agentId)) "db"
      = some .vDb ∧
    (∀ h, handlers toolName = some h →
      executeTool handlers toolName arguments (buildAgentContext userId agentId) =
        match h (dictMerge arguments (buildAgentContext userId agentId)) with
        | .ok r => r
        | .error e => .errEnv ("Tool execution failed: " ++ e)) := by
  refine ⟨fun k v hv => dictLookup_merge _ _ _ _ hv, ?_, ?_, ?_, fun h hh => ?_⟩
  · exact dictLookup_merge _ _ _ _ (by simp [buildAgentContext, dictLookup])
  · exact dictLookup_merge _ _ _ _ (by simp [buildAgentContext, dictLookup])
  · exact dictLookup_merge _ _ _ _ (by simp [buildAgentContext, dictLookup])
  · simp [executeTool, hh]

/-! ## Lemmas about the persistence primitives -/

theorem find?_update_list (l : List RunRow) (runId : Nat) (f : RunRow → RunRow)
    (hf : ∀ r, (f r).id = r.id) :
    (l.map (fun r => if r.id == runId then f r else r)).find? (fun r => r.id == runId)
      = (l.find? (fun r => r.id == runId)).map f := by
  induction l with
  | nil => rfl
  | cons r l ih =>
    by_cases h : (r.id == runId) = true
    · rw [List.map_cons, if_pos h,
        @List.find?_cons_of_pos RunRow (fun r => r.id == runId) (f r) _ (by simp only [hf r]; exact h),
        @List.find?_cons_of_pos RunRow (fun r => r.id == runId) r _ h]
      rfl
    · rw [List.map_cons, if_neg h,
        @List.find?_cons_of_neg RunRow (fun r => r.id == runId) r _ h,
        @List.find?_cons_of_neg RunRow (fun r => r.id == runId) r _ h]
      exact ih

theorem findRun_commitRun (db : DB) (runId : Nat) (f : RunRow → RunRow)
    (hf : ∀ r, (f r).id = r.id) :
    findRun (commitRun db runId f) runId = (findRun db runId).map f :=
  find?_update_list db.runs runId f hf

theorem findRun_logStep (db : DB) (rid runId so : Nat) (ty : StepType)
    (idata odata : Option (List (String × String))) (tname emsg : Option String)
    (dur : Option Nat) :
    findRun (logStep db runId so ty idata odata tname emsg dur) rid = findRun db rid := rfl

theorem runStepsOf_commitRun (db : DB) (rid runId : Nat) (f : RunRow → RunRow) :
    runStepsOf (commitRun db runId f) rid = runStepsOf db rid := rfl

theorem runStepsOf_logStep (db : DB) (runId so : Nat) (ty : StepType)
    (idata odata : Option (List (String × String))) (tname emsg : Option String)
    (dur : Option Nat) :
    runStepsOf (logStep db runId so ty idata odata tname emsg dur) runId
      = runStepsOf db runId ++ [⟨runId, so, ty, idata, odata, tname, emsg, dur⟩] := by
  simp [runStepsOf, logStep, List.filter_append]

theorem addMessage_ok (db : DB) (cid uid : Nat) (role content : String) (c : ConvRow)
    (h : getConversation db cid uid = some c) :
    addMessage db cid uid role content = .ok (withMessage db cid role content) := by
  unfold addMessage
  rw [h]

theorem addMessage_fields (db : DB) (cid uid : Nat) (role content : String) (db' : DB)
    (h : addMessage db cid uid role content = .ok db') :
    db'.runs = db.runs ∧ db'.steps = db.steps ∧ db'.conversations = db.conversations ∧
    db'.messages = db.messages ++ [⟨cid, role, content⟩] ∧
    db'.trace = db.trace ++ [.msgInsert cid role content] := by
  unfold addMessage at h
  cases hg : getConversation db cid uid with
  | none => rw [hg] at h; cases h
  | some c =>
    rw [hg] at h
    injection h with h
    subst h
    exact ⟨rfl, rfl, rfl, rfl, rfl⟩

theorem findRun_withMessage (db : DB) (cid : Nat) (role content : String) (rid : Nat) :
    findRun (withMessage db cid role content) rid = findRun db rid := rfl

theorem runStepsOf_withMessage (db : DB) (cid : Nat) (role content : String) (rid : Nat) :
    runStepsOf (withMessage db cid role content) rid = runStepsOf db rid := rfl

theorem trace_withMessage (db : DB) (cid : Nat) (role content : String) :
    (withMessage db cid role content).trace
      = db.trace ++ [.msgInsert cid role content] := rfl

theorem getConversation_withMessage (db : DB) (cid : Nat) (role content : String)
    (cid' uid : Nat) :
    getConversation (withMessage db cid role content) cid' uid
      = getConversation db cid' uid := rfl

theorem messagesOf_withMessage (db : DB) (cid : Nat) (role content : String) :
    messagesOf (withMessage db cid role content) cid
      = messagesOf db cid ++ [⟨cid, role, content⟩] := by
  simp [messagesOf, withMessage, List.filter_append]

theorem messagesOf_commitRun (db : DB) (rid : Nat) (f : RunRow → RunRow) (cid : Nat) :
    messagesOf (commitRun db rid f) cid = messagesOf db cid := rfl

theorem messagesOf_logStep (db : DB) (runId so : Nat) (ty : StepType)
    (idata odata : Option (List (String × String))) (tname emsg : Option String)
    (dur : Option Nat) (cid : Nat) :
    messagesOf (logStep db runId so ty idata odata tname emsg dur) cid
      = messagesOf db cid := rfl

theorem getConversationHistory_commitRun (db : DB) (runId : Nat) (f : RunRow → RunRow)
    (cid uid : Nat) :
    getConversationHistory (commitRun db runId f) cid uid
      = getConversationHistory db cid uid := rfl

/-! ## Lemmas about the three terminal tails of execute_run -/

theorem findRun_failFinishInner (db : DB) (runId so : Nat) (e : String) (tEnd : Nat) :
    findRun (failFinishInner db runId so e tEnd) runId =
      (findRun db runId).map (fun r =>
        { r with status := .failed, errorMessage := some e, completedAt := some tEnd }) :=
  findRun_commitRun (logStep db runId so .error none none none (some e) none) runId
    (fun r => { r with status := .failed, errorMessage := some e, completedAt := some tEnd })
    (fun _ => rfl)

theorem runStepsOf_failFinishInner (db : DB) (runId so : Nat) (e : String) (tEnd : Nat) :
    runStepsOf (failFinishInner db runId so e tEnd) runId =
      runStepsOf db runId ++ [⟨runId, so, .error, none, none, none, some e, none⟩] := by
  unfold failFinishInner
  rw [runStepsOf_commitRun, runStepsOf_logStep]

theorem findRun_failFinishFatal (db : DB) (runId so : Nat) (e : String) (tEnd : Nat) :
    findRun (failFinishFatal db runId so e tEnd) runId =
      (findRun db runId).map (fun r =>
        { r with status := .failed, errorMessage := some ("Fatal error: " ++ e),
                 completedAt := some tEnd }) :=
  findRun_commitRun db runId
    (fun r =>
      { r with status := .failed, errorMessage := some ("Fatal error: " ++ e),
               completedAt := some tEnd })
    (fun _ => rfl)

theorem runStepsOf_failFinishFatal (db : DB) (runId so : Nat) (e : String) (tEnd : Nat) :
    runStepsOf (failFinishFatal db runId so e tEnd) runId =
      runStepsOf db runId ++ [⟨runId, so, .error, none, none, none, some e, none⟩] := by
  unfold failFinishFatal
  rw [runStepsOf_logStep, runStepsOf_commitRun]

theorem findRun_successFinish (db : DB) (runId so : Nat) (outputText : String)
    (durationMs tEnd : Nat) :
    findRun (successFinish db runId so outputText durationMs tEnd) runId =
      (findRun db runId).map (fun r =>
        { r with status := .completed, outputText := some outputText,
                 completedAt := some tEnd }) :=
  findRun_commitRun
    (logStep db runId so .finalAnswer none (some [("answer", outputText)]) none none
      (some durationMs))
    runId
    (fun r =>
      { r with status := .completed, outputText := some outputText, completedAt := some tEnd })
    (fun _ => rfl)

theorem runStepsOf_successFinish (db : DB) (runId so : Nat) (outputText : String)
    (durationMs tEnd : Nat) :
    runStepsOf (successFinish db runId so outputText durationMs tEnd) runId =
      runStepsOf db runId ++
        [⟨runId, so, .finalAnswer, none, some [("answer", outputText)], none, none,
          some durationMs⟩] := by
  unfold successFinish
  rw [runStepsOf_commitRun, runStepsOf_logStep]

theorem findRun_eq_of_runs_eq (db db' : DB) (rid : Nat) (h : db'.runs = db.runs) :
    findRun db' rid = findRun db rid := by
  unfold findRun
  rw [h]

theorem runStepsOf_eq_of_steps_eq (db db' : DB) (rid : Nat) (h : db'.steps = db.steps) :
    runStepsOf db' rid = runStepsOf db rid := by
  unfold runStepsOf
  rw [h]

theorem findRun_start (db0 : DB) (runId tStart : Nat) (run0 : RunRow)
    (hfind : findRun db0 runId = some run0) :
    findRun (commitRun db0 runId
        (fun r => { r with status := .running, startedAt := some tStart })) runId =
      some { run0 with status := .running, startedAt := some tStart } := by
  rw [findRun_commitRun db0 runId
    (fun r => { r with status := .running, startedAt := some tStart }) (fun _ => rfl), hfind]
  rfl

theorem findRun_start_isSome (db0 : DB) (runId tStart : Nat) (run0 : RunRow)
    (hfind : findRun db0 runId = some run0) :
    (findRun (commitRun db0 runId
        (fun r => { r with status := .running, startedAt := some tStart })) runId).isSome
      = true := by
  rw [findRun_start db0 runId tStart run0 hfind]
  rfl

/-! ## Terminal postconditions shared by the three tails of execute_run -/

theorem terminalPost_fatal (db : DB) (runId so : Nat) (e : String) (tEnd : Nat)
    (h : (findRun db runId).isSome = true) :
    ∃ run', findRun (failFinishFatal db runId so e tEnd) runId = some run' ∧
      (run'.status = .completed ∨ run'.status = .failed) ∧
      (run'.status = .failed → run'.errorMessage.isSome = true ∧
        ∃ s ∈ runStepsOf (failFinishFatal db runId so e tEnd) runId,
          s.stepType = .error) := by
  obtain ⟨r, hr⟩ := Option.isSome_iff_exists.mp h
  rw [findRun_failFinishFatal, hr]
  refine ⟨_, rfl, Or.inr rfl, fun _ => ⟨rfl,
    ⟨⟨runId, so, .error, none, none, none, some e, none⟩, ?_, rfl⟩⟩⟩
  rw [runStepsOf_failFinishFatal]
  exact List.mem_append_right _ (List.mem_singleton_self _)

theorem terminalPost_inner (db : DB) (runId so : Nat) (e : String) (tEnd : Nat)
    (h : (findRun db runId).isSome = true) :
    ∃ run', findRun (failFinishInner db runId so e tEnd) runId = some run' ∧
      (run'.status = .completed ∨ run'.status = .failed) ∧
      (run'.status = .failed → run'.errorMessage.isSome = true ∧
        ∃ s ∈ runStepsOf (failFinishInner db runId so e tEnd) runId,
          s.stepType = .error) := by
  obtain ⟨r, hr⟩ := Option.isSome_iff_exists.mp h
  rw [findRun_failFinishInner, hr]
  refine ⟨_, rfl, Or.inr rfl, fun _ => ⟨rfl,
    ⟨⟨runId, so, .error, none, none, none, some e, none⟩, ?_, rfl⟩⟩⟩
  rw [runStepsOf_failFinishInner]
  exact List.mem_append_right _ (List.mem_singleton_self _)

theorem terminalPost_success (db : DB) (runId so : Nat) (outputText : String)
    (durationMs tEnd : Nat) (h : (findRun db runId).isSome = true) :
    ∃ run', findRun (successFinish db runId so outputText durationMs tEnd) runId
        = some run' ∧
      (run'.status = .completed ∨ run'.status = .failed) ∧
      (run'.status = .failed → run'.errorMessage.isSome = true ∧
        ∃ s ∈ runStepsOf (successFinish db runId so outputText durationMs tEnd) runId,
          s.stepType = .error) := by
  obtain ⟨r, hr⟩ := Option.isSome_iff_exists.mp h
  rw [findRun_successFinish, hr]
  exact ⟨_, rfl, Or.inl rfl, fun habs => nomatch habs⟩

theorem executeRunTail_post (buildRes : Except String Unit)
    (agentRun : String → Except String String) (fullInput : String)
    (tEnd durationMs runId : Nat) (inputText : String) (userId : Nat)
    (conversationId : Option Nat) (db3 : DB) (so : Nat)
    (h : (findRun db3 runId).isSome = true) :
    ∃ run', findRun (executeRunTail buildRes agentRun fullInput tEnd durationMs runId
        inputText userId conversationId db3 so) runId = some run' ∧
      (run'.status = .completed ∨ run'.status = .failed) ∧
      (run'.status = .failed → run'.errorMessage.isSome = true ∧
        ∃ s ∈ runStepsOf (executeRunTail buildRes agentRun fullInput tEnd durationMs runId
            inputText userId conversationId db3 so) runId,
          s.stepType = .error) := by
  unfold executeRunTail
  cases buildRes with
  | error e => exact terminalPost_fatal _ _ _ _ _ h
  | ok u =>
    cases agentRun fullInput with
    | error e => exact terminalPost_inner _ _ _ _ _ h
    | ok out =>
      cases conversationId with
      | none => exact terminalPost_success _ _ _ _ _ _ h
      | some cid =>
        dsimp only
        cases hA : addMessage db3 cid userId "user" inputText with
        | error e => exact terminalPost_inner _ _ _ _ _ h
        | ok dbA =>
          have hAr : (findRun dbA runId).isSome = true := by
            rw [findRun_eq_of_runs_eq db3 dbA runId (addMessage_fields _ _ _ _ _ _ hA).1]
            exact h
          dsimp only
          cases hB : addMessage dbA cid userId "assistant" out with
          | error e => exact terminalPost_inner _ _ _ _ _ hAr
          | ok dbB =>
            have hBr : (findRun dbB runId).isSome = true := by
              rw [findRun_eq_of_runs_eq dbA dbB runId (addMessage_fields _ _ _ _ _ _ hB).1]
              exact hAr
            exact terminalPost_success _ _ _ _ _ _ hBr

/-- C1: execute_run on an existing PENDING run always returns normally with
the run committed in a terminal status, COMPLETED or FAILED, never left in
RUNNING or PENDING; and on every failure path (setup failure, loop failure,
or an exception escaping the success tail) the run error message is set
and at least one ERROR step is recorded for the run. -/
theorem execute_run_reaches_terminal_status
    (buildRes : Except String Unit) (agentRun : String → Except String String)
    (tStart tEnd durationMs runId : Nat) (inputText : String) (db0 : DB)
    (userId : Nat) (conversationId : Option Nat) (run0 : RunRow)
    (hfind : findRun db0 runId = some run0) (hpend : run0.status = RunStatus.pending) :
    ∃ db', executeRun buildRes agentRun tStart tEnd durationMs runId inputText db0
        userId conversationId = .ok db' ∧
      ∃ run', findRun db' runId = some run' ∧
        (run'.status = .completed ∨ run'.status = .failed) ∧
        (run'.status = .failed →
          run'.errorMessage.isSome = true ∧
          ∃ s ∈ runStepsOf db' runId, s.stepType = .error) := by
  unfold executeRun
  rw [hfind]
  dsimp only
  refine ⟨_, rfl, executeRunTail_post _ _ _ _ _ _ _ _ _ _ _ ?_⟩
  simp only [findRun_logStep]
  split
  · exact findRun_start_isSome db0 runId tStart run0 hfind
  · rw [findRun_logStep]
    exact findRun_start_isSome db0 runId tStart run0 hfind

/-- Concrete state for witnesses: one PENDING run, no steps, no
conversations, one agent. -/
def dbC1 : DB :=
  ⟨[⟨1, 7, 2, none, "task", .pending, none, none, none, none⟩], [], [], [], [⟨2, 7⟩], []⟩

theorem execute_run_reaches_terminal_status_witness :
    ∃ db', executeRun (.ok ()) (fun _ => .error "boom") 5 9 4 1 "task" dbC1 7 none
        = .ok db' ∧
      ∃ run', findRun db' 1 = some run' ∧
        (run'.status = .completed ∨ run'.status = .failed) ∧
        (run'.status = .failed →
          run'.errorMessage.isSome = true ∧
          ∃ s ∈ runStepsOf db' 1, s.stepType = .error) :=
  execute_run_reaches_terminal_status (.ok ()) (fun _ => .error "boom") 5 9 4 1 "task" dbC1 7
    none ⟨1, 7, 2, none, "task", .pending, none, none, none, none⟩ rfl rfl

theorem executeRunTail_stepOrders (buildRes : Except String Unit)
    (agentRun : String → Except String String) (fullInput : String)
    (tEnd durationMs runId : Nat) (inputText : String) (userId : Nat)
    (conversationId : Option Nat) (db3 : DB) (so : Nat)
    (hsteps : (runStepsOf db3 runId).map (fun s => s.stepOrder) = List.range so) :
    (runStepsOf (executeRunTail buildRes agentRun fullInput tEnd durationMs runId
        inputText userId conversationId db3 so) runId).map (fun s => s.stepOrder)
      = List.range (so + 1) := by
  unfold executeRunTail
  cases buildRes with
  | error e =>
    dsimp only
    rw [runStepsOf_failFinishFatal]
    simp [hsteps, List.range_succ]
  | ok u =>
    cases agentRun fullInput with
    | error e =>
      dsimp only
      rw [runStepsOf_failFinishInner]
      simp [hsteps, List.range_succ]
    | ok out =>
      cases conversationId with
      | none =>
        dsimp only
        rw [runStepsOf_successFinish]
        simp [hsteps, List.range_succ]
      | some cid =>
        dsimp only
        cases hA : addMessage db3 cid userId "user" inputText with
        | error e =>
          dsimp only
          rw [runStepsOf_failFinishInner]
          simp [hsteps, List.range_succ]
        | ok dbA =>
          have hAs : runStepsOf dbA runId = runStepsOf db3 runId :=
            runStepsOf_eq_of_steps_eq db3 dbA runId (addMessage_fields _ _ _ _ _ _ hA).2.1
          dsimp only
          cases hB : addMessage dbA cid userId "assistant" out with
          | error e =>
            dsimp only
            rw [runStepsOf_failFinishInner, hAs]
            simp [hsteps, List.range_succ]
          | ok dbB =>
            have hBs : runStepsOf dbB runId = runStepsOf dbA runId :=
              runStepsOf_eq_of_steps_eq dbA dbB runId (addMessage_fields _ _ _ _ _ _ hB).2.1
            dsimp only
            rw [runStepsOf_successFinish, hBs, hAs]
            simp [hsteps, List.range_succ]

theorem executeRunTail_stepOrders_range (buildRes : Except String Unit)
    (agentRun : String → Except String String) (fullInput : String)
    (tEnd durationMs runId : Nat) (inputText : String) (userId : Nat)
    (conversationId : Option Nat) (db3 : DB) (so : Nat)
    (hsteps : (runStepsOf db3 runId).map (fun s => s.stepOrder) = List.range so) :
    (runStepsOf (executeRunTail buildRes agentRun fullInput tEnd durationMs runId
        inputText userId conversationId db3 so) runId).map (fun s => s.stepOrder)
      = List.range (runStepsOf (executeRunTail buildRes agentRun fullInput tEnd durationMs
          runId inputText userId conversationId db3 so) runId).length := by
  have h1 := executeRunTail_stepOrders buildRes agentRun fullInput tEnd durationMs runId
    inputText userId conversationId db3 so hsteps
  have h2 : (runStepsOf (executeRunTail buildRes agentRun fullInput tEnd durationMs runId
      inputText userId conversationId db3 so) runId).length = so + 1 := by
    have h3 := congrArg List.length h1
    simpa using h3
  rw [h1, h2]

/-- C2: for a run with no previously recorded steps, the step_order values
of the RunStep rows persisted by execute_run, taken in the order the steps
are recorded, are exactly 0, 1, ..., n-1: strictly increasing from 0, with
no gaps, and unique within the run. -/
theorem execute_run_step_order_gapless
    (buildRes : Except String Unit) (agentRun : String → Except String String)
    (tStart tEnd durationMs runId : Nat) (inputText : String) (db0 : DB)
    (userId : Nat) (conversationId : Option Nat) (run0 : RunRow)
    (hfind : findRun db0 runId = some run0)
    (hsteps : runStepsOf db0 runId = []) :
    ∃ db', executeRun buildRes agentRun tStart tEnd durationMs runId inputText db0
        userId conversationId = .ok db' ∧
      (runStepsOf db' runId).map (fun s => s.stepOrder)
        = List.range (runStepsOf db' runId).length := by
  unfold executeRun
  rw [hfind]
  dsimp only
  refine ⟨_, rfl, ?_⟩
  cases conversationId with
  | none =>
    simp only [List.isEmpty_nil, eq_self_iff_true, if_true]
    apply executeRunTail_stepOrders_range
    rw [runStepsOf_logStep, runStepsOf_commitRun, hsteps]
    rfl
  | some cid =>
    simp only [getConversationHistory_commitRun]
    by_cases hh : (getConversationHistory db0 cid userId).isEmpty = true
    · simp only [hh, eq_self_iff_true, if_true]
      apply executeRunTail_stepOrders_range
      rw [runStepsOf_logStep, runStepsOf_commitRun, hsteps]
      rfl
    · rw [Bool.not_eq_true] at hh
      simp only [hh, Bool.false_eq_true, if_false]
      apply executeRunTail_stepOrders_range
      rw [runStepsOf_logStep, runStepsOf_logStep, runStepsOf_commitRun, hsteps]
      rfl

theorem execute_run_step_order_gapless_witness :
    ∃ db', executeRun (.ok ()) (fun _ => .ok "four") 5 9 4 1 "task" dbC1 7 none = .ok db' ∧
      (runStepsOf db' 1).map (fun s => s.stepOrder) = List.range (runStepsOf db' 1).length :=
  execute_run_step_order_gapless (.ok ()) (fun _ => .ok "four") 5 9 4 1 "task" dbC1 7 none
    ⟨1, 7, 2, none, "task", .pending, none, none, none, none⟩ rfl rfl

theorem trace_successFinish (db : DB) (runId so : Nat) (out : String) (durationMs tEnd : Nat)
    (r : RunRow) (h : findRun db runId = some r) :
    (successFinish db runId so out durationMs tEnd).trace =
      db.trace ++ [.stepInsert runId so .finalAnswer, .runCommit runId .completed] := by
  unfold successFinish commitRun
  dsimp only
  rw [findRun_logStep, h]
  dsimp only [logStep]
  simp

/-- The success path of the tail: message persistence (when a valid
conversation is attached), the FINAL_ANSWER step, and the COMPLETED
commit, in that order on the effect trace. -/
theorem executeRunTail_success (agentRun : String → Except String String)
    (fullInput : String) (tEnd durationMs runId : Nat) (inputText : String)
    (userId : Nat) (conversationId : Option Nat) (db3 : DB) (so : Nat) (out : String)
    (r3 : RunRow)
    (hrun : agentRun fullInput = .ok out)
    (hf3 : findRun db3 runId = some r3)
    (hconv : ∀ cid, conversationId = some cid →
      (getConversation db3 cid userId).isSome = true) :
    findRun (executeRunTail (.ok ()) agentRun fullInput tEnd durationMs runId inputText
        userId conversationId db3 so) runId
      = some { r3 with
          status := .completed, outputText := some out, completedAt := some tEnd } ∧
    (runStepsOf (executeRunTail (.ok ()) agentRun fullInput tEnd durationMs runId inputText
        userId conversationId db3 so) runId).getLast?
      = some ⟨runId, so, .finalAnswer, none, some [("answer", out)], none, none,
          some durationMs⟩ ∧
    (executeRunTail (.ok ()) agentRun fullInput tEnd durationMs runId inputText
        userId conversationId db3 so).trace
      = db3.trace ++
        (match conversationId with
         | some cid => [Eff.msgInsert cid "user" inputText,
                        Eff.msgInsert cid "assistant" out]
         | none => []) ++
        [Eff.stepInsert runId so .finalAnswer, Eff.runCommit runId .completed] ∧
    (∀ cid, conversationId = some cid →
      messagesOf (executeRunTail (.ok ()) agentRun fullInput tEnd durationMs runId inputText
          userId conversationId db3 so) cid
        = messagesOf db3 cid ++ [⟨cid, "user", inputText⟩, ⟨cid, "assistant", out⟩]) := by
  unfold executeRunTail
  rw [hrun]
  dsimp only
  cases conversationId with
  | none =>
    dsimp only
    refine ⟨?_, ?_, ?_, fun cid h => nomatch h⟩
    · rw [findRun_successFinish, hf3]
      rfl
    · rw [runStepsOf_successFinish]
      simp [List.getLast?_append]
    · rw [trace_successFinish _ _ _ _ _ _ _ hf3]
      simp
  | some cid =>
    dsimp only
    obtain ⟨conv, hcv⟩ := Option.isSome_iff_exists.mp (hconv cid rfl)
    rw [addMessage_ok db3 cid userId "user" inputText conv hcv]
    dsimp only
    rw [addMessage_ok (withMessage db3 cid "user" inputText) cid userId "assistant" out conv
      (by rw [getConversation_withMessage]; exact hcv)]
    dsimp only
    refine ⟨?_, ?_, ?_, ?_⟩
    · rw [findRun_successFinish, findRun_withMessage, findRun_withMessage, hf3]
      rfl
    · rw [runStepsOf_successFinish]
      simp [List.getLast?_append]
    · rw [trace_successFinish _ _ _ _ _ _ _
        (by rw [findRun_withMessage, findRun_withMessage]; exact hf3)]
      rw [trace_withMessage, trace_withMessage]
      simp
    · intro cid' h
      injection h with h
      subst h
      rw [show messagesOf (successFinish (withMessage (withMessage db3 cid "user" inputText)
            cid "assistant" out) runId so out durationMs tEnd) cid
          = messagesOf (withMessage (withMessage db3 cid "user" inputText)
              cid "assistant" out) cid from rfl]
      rw [messagesOf_withMessage, messagesOf_withMessage]
      simp

/-- C6: on a successful reasoning loop, execute_run performs in order: it
appends the user input and then the assistant output as turns of the
attached conversation (when one is attached), records a FINAL_ANSWER step
carrying the answer and elapsed duration, and commits the run COMPLETED
with output_text set to the answer and completed_at stamped. -/
theorem execute_run_success_effects
    (agentRun : String → Except String String)
    (tStart tEnd durationMs runId : Nat) (inputText : String) (db0 : DB)
    (userId : Nat) (conversationId : Option Nat) (run0 : RunRow) (out : String)
    (hfind : findRun db0 runId = some run0)
    (hrun : ∀ s, agentRun s = .ok out)
    (hconv : ∀ cid, conversationId = some cid →
      (getConversation db0 cid userId).isSome = true) :
    ∃ db', executeRun (.ok ()) agentRun tStart tEnd durationMs runId inputText db0
        userId conversationId = .ok db' ∧
      findRun db' runId = some { run0 with
        status := .completed, startedAt := some tStart,
        outputText := some out, completedAt := some tEnd } ∧
      (∃ pre so, db'.trace = pre ++
          (match conversationId with
           | some cid => [Eff.msgInsert cid "user" inputText,
                          Eff.msgInsert cid "assistant" out]
           | none => []) ++
          [Eff.stepInsert runId so .finalAnswer, Eff.runCommit runId .completed] ∧
        (runStepsOf db' runId).getLast? = some ⟨runId, so, .finalAnswer, none,
          some [("answer", out)], none, none, some durationMs⟩) ∧
      (∀ cid, conversationId = some cid →
        messagesOf db' cid = messagesOf db0 cid ++
          [⟨cid, "user", inputText⟩, ⟨cid, "assistant", out⟩]) := by
  unfold executeRun
  rw [hfind]
  dsimp only
  cases conversationId with
  | none =>
    simp only [List.isEmpty_nil, eq_self_iff_true, if_true]
    refine ⟨_, rfl, ?_, ?_, ?_⟩
    · refine (executeRunTail_success _ _ _ _ _ _ _ _ _ _ _
          { run0 with status := .running, startedAt := some tStart } (hrun _) ?_ ?_).1
      · simp only [findRun_logStep]
        exact findRun_start db0 runId tStart run0 hfind
      · exact fun c h => hconv c h
    · refine ⟨_, _,
        (executeRunTail_success _ _ _ _ _ _ _ _ _ _ _
          { run0 with status := .running, startedAt := some tStart } (hrun _) ?_ ?_).2.2.1,
        (executeRunTail_success _ _ _ _ _ _ _ _ _ _ _
          { run0 with status := .running, startedAt := some tStart } (hrun _) ?_ ?_).2.1⟩
      · simp only [findRun_logStep]
        exact findRun_start db0 runId tStart run0 hfind
      · exact fun c h => hconv c h
      · simp only [findRun_logStep]
        exact findRun_start db0 runId tStart run0 hfind
      · exact fun c h => hconv c h
    · refine (executeRunTail_success _ _ _ _ _ _ _ _ _ _ _
          { run0 with status := .running, startedAt := some tStart } (hrun _) ?_ ?_).2.2.2
      · simp only [findRun_logStep]
        exact findRun_start db0 runId tStart run0 hfind
      · exact fun c h => hconv c h
  | some cid =>
    simp only [getConversationHistory_commitRun]
    by_cases hh : (getConversationHistory db0 cid userId).isEmpty = true
    · simp only [hh, eq_self_iff_true, if_true]
      refine ⟨_, rfl, ?_, ?_, ?_⟩
      · refine (executeRunTail_success _ _ _ _ _ _ _ _ _ _ _
          { run0 with status := .running, startedAt := some tStart } (hrun _) ?_ ?_).1
        · simp only [findRun_logStep]
          exact findRun_start db0 runId tStart run0 hfind
        · exact fun c h => hconv c h
      · refine ⟨_, _,
          (executeRunTail_success _ _ _ _ _ _ _ _ _ _ _
          { run0 with status := .running, startedAt := some tStart } (hrun _) ?_ ?_).2.2.1,
          (executeRunTail_success _ _ _ _ _ _ _ _ _ _ _
          { run0 with status := .running, startedAt := some tStart } (hrun _) ?_ ?_).2.1⟩
        · simp only [findRun_logStep]
          exact findRun_start db0 runId tStart run0 hfind
        · exact fun c h => hconv c h
        · simp only [findRun_logStep]
          exact findRun_start db0 runId tStart run0 hfind
        · exact fun c h => hconv c h
      · refine (executeRunTail_success _ _ _ _ _ _ _ _ _ _ _
          { run0 with status := .running, startedAt := some tStart } (hrun _) ?_ ?_).2.2.2
        · simp only [findRun_logStep]
          exact findRun_start db0 runId tStart run0 hfind
        · exact fun c h => hconv c h
    · rw [Bool.not_eq_true] at hh
      simp only [hh, Bool.false_eq_true, if_false]
      refine ⟨_, rfl, ?_, ?_, ?_⟩
      · refine (executeRunTail_success _ _ _ _ _ _ _ _ _ _ _
          { run0 with status := .running, startedAt := some tStart } (hrun _) ?_ ?_).1
        · simp only [findRun_logStep]
          exact findRun_start db0 runId tStart run0 hfind
        · exact fun c h => hconv c h
      · refine ⟨_, _,
          (executeRunTail_success _ _ _ _ _ _ _ _ _ _ _
          { run0 with status := .running, startedAt := some tStart } (hrun _) ?_ ?_).2.2.1,
          (executeRunTail_success _ _ _ _ _ _ _ _ _ _ _
          { run0 with status := .running, startedAt := some tStart } (hrun _) ?_ ?_).2.1⟩
        · simp only [findRun_logStep]
          exact findRun_start db0 runId tStart run0 hfind
        · exact fun c h => hconv c h
        · simp only [findRun_logStep]
          exact findRun_start db0 runId tStart run0 hfind
        · exact fun c h => hconv c h
      · refine (executeRunTail_success _ _ _ _ _ _ _ _ _ _ _
          { run0 with status := .running, startedAt := some tStart } (hrun _) ?_ ?_).2.2.2
        · simp only [findRun_logStep]
          exact findRun_start db0 runId tStart run0 hfind
        · exact fun c h => hconv c h

/-- C10: execute_run_async on a nonexistent run id returns with no state
mutation at all; on an existing run whose agent row is missing, it commits
the run FAILED with error message Agent not found, records no RunStep, and
leaves started_at and completed_at exactly as they were (unset for a
freshly created run). -/
theorem execute_run_async_guards (buildRes : Except String Unit)
    (agentRun : String → Except String String) (tStart tEnd durationMs runId : Nat)
    (db0 : DB) :
    (findRun db0 runId = none →
      executeRunAsync buildRes agentRun tStart tEnd durationMs runId db0 = .ok db0) ∧
    (∀ run0, findRun db0 runId = some run0 →
      db0.agents.find? (fun a => a.id == run0.agentId) = none →
      ∃ db', executeRunAsync buildRes agentRun tStart tEnd durationMs runId db0
          = .ok db' ∧
        db'.steps = db0.steps ∧
        ∃ run', findRun db' runId = some run' ∧
          run'.status = .failed ∧ run'.errorMessage = some "Agent not found" ∧
          run'.startedAt = run0.startedAt ∧ run'.completedAt = run0.completedAt) := by
  constructor
  · intro h0
    unfold executeRunAsync
    rw [h0]
  · intro run0 h0 hag
    unfold executeRunAsync
    rw [h0]
    dsimp only
    rw [hag]
    refine ⟨_, rfl, rfl, ?_⟩
    rw [findRun_commitRun db0 runId
      (fun r => { r with status := .failed, errorMessage := some "Agent not found" })
      (fun _ => rfl), h0]
    exact ⟨_, rfl, rfl, rfl, rfl, rfl⟩

/-- Concrete state for the C6 witness: a PENDING run attached to a valid
conversation that already holds one message. -/
def dbC6 : DB :=
  ⟨[⟨1, 7, 2, some 3, "hi", .pending, none, none, none, none⟩], [], [⟨3, 7⟩],
    [⟨3, "user", "x"⟩], [⟨2, 7⟩], []⟩

theorem execute_run_success_effects_witness :
    ∃ db', executeRun (.ok ()) (fun _ => .ok "ans") 5 9 4 1 "hi" dbC6 7 (some 3)
        = .ok db' ∧
      findRun db' 1 = some ⟨1, 7, 2, some 3, "hi", .completed, some "ans", none,
        some 5, some 9⟩ ∧
      (∃ pre so, db'.trace = pre ++
          [Eff.msgInsert 3 "user" "hi", Eff.msgInsert 3 "assistant" "ans"] ++
          [Eff.stepInsert 1 so .finalAnswer, Eff.runCommit 1 .completed] ∧
        (runStepsOf db' 1).getLast? = some ⟨1, so, .finalAnswer, none,
          some [("answer", "ans")], none, none, some 4⟩) ∧
      (∀ cid, (some 3 : Option Nat) = some cid →
        messagesOf db' cid = messagesOf dbC6 cid ++
          [⟨cid, "user", "hi"⟩, ⟨cid, "assistant", "ans"⟩]) :=
  execute_run_success_effects (fun _ => .ok "ans") 5 9 4 1 "hi" dbC6 7 (some 3)
    ⟨1, 7, 2, some 3, "hi", .pending, none, none, none, none⟩ "ans" rfl (fun _ => rfl)
    (fun cid h => by cases h; rfl)

/-! ## The informational conversation-history step (claim C5) -/

/-- A step whose input_data carries the conversation_history info entry
logged by execute_run when it loads non-empty history. -/
def isHistoryInfoStep (s : StepRow) : Bool :=
  match s.inputData with
  | some l => l.any (fun p => p.1 == "conversation_history")
  | none => false

/-- Whatever branch the tail takes, it appends exactly one step, and that
step carries no input_data. -/
theorem executeRunTail_steps_shape (buildRes : Except String Unit)
    (agentRun : String → Except String String) (fullInput : String)
    (tEnd durationMs runId : Nat) (inputText : String) (userId : Nat)
    (conversationId : Option Nat) (db3 : DB) (so : Nat) :
    ∃ t : StepRow, runStepsOf (executeRunTail buildRes agentRun fullInput tEnd durationMs
        runId inputText userId conversationId db3 so) runId
      = runStepsOf db3 runId ++ [t] ∧ t.inputData = none := by
  unfold executeRunTail
  cases buildRes with
  | error e =>
    dsimp only
    exact ⟨_, runStepsOf_failFinishFatal db3 runId so e tEnd, rfl⟩
  | ok u =>
    cases agentRun fullInput with
    | error e =>
      dsimp only
      exact ⟨_, runStepsOf_failFinishInner db3 runId so e tEnd, rfl⟩
    | ok out =>
      cases conversationId with
      | none =>
        dsimp only
        exact ⟨_, runStepsOf_successFinish db3 runId so out durationMs tEnd, rfl⟩
      | some cid =>
        dsimp only
        cases hA : addMessage db3 cid userId "user" inputText with
        | error e =>
          dsimp only
          exact ⟨_, runStepsOf_failFinishInner db3 runId so e tEnd, rfl⟩
        | ok dbA =>
          have hAs : runStepsOf dbA runId = runStepsOf db3 runId :=
            runStepsOf_eq_of_steps_eq db3 dbA runId (addMessage_fields _ _ _ _ _ _ hA).2.1
          dsimp only
          cases hB : addMessage dbA cid userId "assistant" out with
          | error e =>
            dsimp only
            refine ⟨⟨runId, so, .error, none, none, none, some e, none⟩, ?_, rfl⟩
            rw [runStepsOf_failFinishInner, hAs]
          | ok dbB =>
            have hBs : runStepsOf dbB runId = runStepsOf dbA runId :=
              runStepsOf_eq_of_steps_eq dbA dbB runId (addMessage_fields _ _ _ _ _ _ hB).2.1
            dsimp only
            refine ⟨⟨runId, so, .finalAnswer, none, some [("answer", out)], none, none,
              some durationMs⟩, ?_, rfl⟩
            rw [runStepsOf_successFinish, hBs, hAs]

theorem executeRunTail_filter_len (buildRes : Except String Unit)
    (agentRun : String → Except String String) (fullInput : String)
    (tEnd durationMs runId : Nat) (inputText : String) (userId : Nat)
    (conversationId : Option Nat) (db3 : DB) (so : Nat) :
    ((runStepsOf (executeRunTail buildRes agentRun fullInput tEnd durationMs runId
        inputText userId conversationId db3 so) runId).filter
          (fun s => isHistoryInfoStep s)).length
      = ((runStepsOf db3 runId).filter (fun s => isHistoryInfoStep s)).length := by
  obtain ⟨t, ht, htn⟩ := executeRunTail_steps_shape buildRes agentRun fullInput tEnd
    durationMs runId inputText userId conversationId db3 so
  have htf : isHistoryInfoStep t = false := by
    unfold isHistoryInfoStep
    rw [htn]
  rw [ht, List.filter_append]
  simp [htf]

theorem executeRunTail_steps_cons (buildRes : Except String Unit)
    (agentRun : String → Except String String) (fullInput : String)
    (tEnd durationMs runId : Nat) (inputText : String) (userId : Nat)
    (conversationId : Option Nat) (db3 : DB) (so : Nat)
    (s0 s1 : StepRow) (pre : List StepRow)
    (h3 : runStepsOf db3 runId = s0 :: s1 :: pre) :
    ∃ rest, runStepsOf (executeRunTail buildRes agentRun fullInput tEnd durationMs runId
        inputText userId conversationId db3 so) runId = s0 :: s1 :: rest := by
  obtain ⟨t, ht, htn⟩ := executeRunTail_steps_shape buildRes agentRun fullInput tEnd
    durationMs runId inputText userId conversationId db3 so
  rw [ht, h3]
  exact ⟨pre ++ [t], by simp⟩

/-- Concrete state for the C5 counterexample: a PENDING run attached to a
valid, caller-owned conversation that holds no messages yet. -/
def dbC5 : DB :=
  ⟨[⟨1, 7, 2, some 3, "hi", .pending, none, none, none, none⟩], [], [⟨3, 7⟩], [],
    [⟨2, 7⟩], []⟩

/-- C5 counterexample: a run executed with a valid conversation attached
whose history is empty records no informational history step at all, while
the claim demands exactly one additional informational step for every
valid attached conversation. -/
theorem conversation_history_step_cex :
    ∃ db', executeRun (.ok ()) (fun _ => .ok "ans") 5 9 4 1 "hi" dbC5 7 (some 3)
        = .ok db' ∧
      ¬ ((runStepsOf db' 1).filter (fun s => isHistoryInfoStep s)).length = 1 := by
  refine ⟨_, rfl, ?_⟩
  decide

/-- C5 (amended): for a run executed with a valid (existing, caller-owned)
conversation attached, execute_run records exactly one informational
history step — before the raw task-input step, at step_order 0 — when the
loaded history is non-empty, and no informational step at all when the
loaded history is empty. -/
theorem conversation_history_step_amended
    (buildRes : Except String Unit) (agentRun : String → Except String String)
    (tStart tEnd durationMs runId : Nat) (inputText : String) (db0 : DB)
    (userId cid : Nat) (run0 : RunRow) (conv : ConvRow)
    (hfind : findRun db0 runId = some run0)
    (hsteps : runStepsOf db0 runId = [])
    (hconv : getConversation db0 cid userId = some conv) :
    ∃ db', executeRun buildRes agentRun tStart tEnd durationMs runId inputText db0
        userId (some cid) = .ok db' ∧
      ((runStepsOf db' runId).filter (fun s => isHistoryInfoStep s)).length
        = (if (getConversationHistory db0 cid userId).isEmpty then 0 else 1) ∧
      ((getConversationHistory db0 cid userId).isEmpty = false →
        ∃ rest, runStepsOf db' runId
          = ⟨runId, 0, .llmCall,
              some [("conversation_history",
                "Loaded " ++ toString (getConversationHistory db0 cid userId).length
                  ++ " previous messages")], none, none, none, none⟩ ::
            ⟨runId, 1, .llmCall, some [("user_input", inputText)],
              none, none, none, none⟩ :: rest) := by
  have hbFalse : (("user_input" : String) == "conversation_history") = false := by decide
  have hbTrue : (("conversation_history" : String) == "conversation_history") = true := by
    decide
  unfold executeRun
  rw [hfind]
  dsimp only
  simp only [getConversationHistory_commitRun]
  by_cases hh : (getConversationHistory db0 cid userId).isEmpty = true
  · simp only [hh, eq_self_iff_true, if_true]
    refine ⟨_, rfl, ?_, fun hf => ?_⟩
    · rw [executeRunTail_filter_len, runStepsOf_logStep, runStepsOf_commitRun, hsteps]
      simp [isHistoryInfoStep, hbFalse]
    · exact Bool.noConfusion hf
  · rw [Bool.not_eq_true] at hh
    simp only [hh, Bool.false_eq_true, if_false]
    refine ⟨_, rfl, ?_, fun _ => ?_⟩
    · rw [executeRunTail_filter_len, runStepsOf_logStep, runStepsOf_logStep,
        runStepsOf_commitRun, hsteps]
      simp [isHistoryInfoStep, hbFalse, hbTrue]
    · refine executeRunTail_steps_cons _ _ _ _ _ _ _ _ _ _ _ _ _ ?_ ?_
      · exact []
      · rw [runStepsOf_logStep, runStepsOf_logStep, runStepsOf_commitRun, hsteps]
        rfl

/-- Concrete state for the C5 witness: the attached conversation holds one
message, so the history is non-empty. -/
def dbC5w : DB :=
  ⟨[⟨1, 7, 2, some 3, "hi", .pending, none, none, none, none⟩], [], [⟨3, 7⟩],
    [⟨3, "user", "x"⟩], [⟨2, 7⟩], []⟩

theorem conversation_history_step_amended_witness :
    ∃ db', executeRun (.ok ()) (fun _ => .ok "ans") 5 9 4 1 "hi" dbC5w 7 (some 3)
        = .ok db' ∧
      ((runStepsOf db' 1).filter (fun s => isHistoryInfoStep s)).length
        = (if (getConversationHistory dbC5w 3 7).isEmpty then 0 else 1) ∧
      ((getConversationHistory dbC5w 3 7).isEmpty = false →
        ∃ rest, runStepsOf db' 1
          = ⟨1, 0, .llmCall,
              some [("conversation_history",
                "Loaded " ++ toString (getConversationHistory dbC5w 3 7).length
                  ++ " previous messages")], none, none, none, none⟩ ::
            ⟨1, 1, .llmCall, some [("user_input", "hi")],
              none, none, none, none⟩ :: rest) :=
  conversation_history_step_amended (.ok ()) (fun _ => .ok "ans") 5 9 4 1 "hi" dbC5w 7 3
    ⟨1, 7, 2, some 3, "hi", .pending, none, none, none, none⟩ ⟨3, 7⟩ rfl rfl rfl

/-! ## Lemmas about the polling loop (claim C7) -/

theorem hbPolls_append (l1 l2 : List SEvent) :
    hbPolls (l1 ++ l2) = hbPolls l1 ++ hbPolls l2 :=
  List.filterMap_append l1 l2 _

theorem hbPolls_changed (c : Prop) [Decidable c] (s : RunStatus) :
    hbPolls (if c then [SEvent.statusEv s] else []) = [] := by
  split <;> rfl

theorem closing_changed (c : Prop) [Decidable c] (s : RunStatus) :
    ∀ e ∈ (if c then [SEvent.statusEv s] else []), isClosing e = false := by
  split
  · intro e he
    rw [List.mem_singleton] at he
    subst he
    rfl
  · intro e he
    cases he

theorem find?_range'_eq_some {p : Nat → Bool} : ∀ (n s k : Nat),
    (List.range' s n).find? p = some k →
    p k = true ∧ s ≤ k ∧ k < s + n ∧ ∀ m, s ≤ m → m < k → p m = false := by
  intro n
  induction n with
  | zero =>
    intro s k h
    cases h
  | succ n ih =>
    intro s k h
    rw [List.range'_succ] at h
    by_cases hp : p s = true
    · rw [List.find?_cons_of_pos _ hp] at h
      injection h with h
      subst h
      exact ⟨hp, Nat.le_refl _, by omega, fun m h1 h2 => absurd h1 (by omega)⟩
    · rw [List.find?_cons_of_neg _ hp] at h
      obtain ⟨h1, h2, h3, h4⟩ := ih (s + 1) k h
      refine ⟨h1, by omega, by omega, fun m hm1 hm2 => ?_⟩
      rcases Nat.eq_or_lt_of_le hm1 with he | hl
      · rw [← he]
        exact Bool.eq_false_iff.mpr hp
      · exact h4 m (by omega) hm2

/-- The loop never observing a terminal status: it runs out of fuel, emits
heartbeats exactly at the polls divisible by 10, and emits no
stream-closing event. -/
theorem runPolls_no_term (snap : Nat → Snapshot) : ∀ (fuel : Nat) (last : RunStatus) (pc : Nat),
    (∀ m, pc < m → m ≤ pc + fuel → isTerminal (snap m).status = false) →
    (runPolls snap fuel last pc).2 = pc + fuel ∧
    hbPolls (runPolls snap fuel last pc).1
      = (List.range' (pc + 1) fuel).filter (fun p => p % 10 == 0) ∧
    ∀ e ∈ (runPolls snap fuel last pc).1, isClosing e = false := by
  intro fuel
  induction fuel with
  | zero =>
    intro last pc h
    exact ⟨rfl, rfl, fun e he => absurd he (List.not_mem_nil e)⟩
  | succ fuel ih =>
    intro last pc h
    have hterm : isTerminal (snap (pc + 1)).status = false := h (pc + 1) (by omega) (by omega)
    have hcf : ((snap (pc + 1)).status == RunStatus.completed) = false ∧
        ((snap (pc + 1)).status == RunStatus.failed) = false := by
      unfold isTerminal at hterm
      exact Bool.or_eq_false_iff.mp hterm
    obtain ⟨ih1, ih2, ih3⟩ := ih (snap (pc + 1)).status (pc + 1)
      (fun m h1 h2 => h m (by omega) (by omega))
    rw [runPolls]
    dsimp only
    simp only [hcf.1, hcf.2, Bool.false_eq_true, if_false]
    refine ⟨?_, ?_, ?_⟩
    · rw [ih1]
      omega
    · rw [hbPolls_append, hbPolls_append, hbPolls_changed, ih2, List.range'_succ]
      by_cases hmod : ((pc + 1) % 10 == 0) = true
      · rw [if_pos hmod, List.filter_cons, if_pos hmod]
        rfl
      · rw [Bool.not_eq_true] at hmod
        rw [if_neg (by simp [hmod]), List.filter_cons,
          if_neg (by simp [hmod])]
        rfl
    · intro e he
      rcases List.mem_append.mp he with h12 | hr
      · rcases List.mem_append.mp h12 with hc | hb
        · exact closing_changed _ _ e hc
        · by_cases hmod : ((pc + 1) % 10 == 0) = true
          · rw [if_pos hmod, List.mem_singleton] at hb
            subst hb
            rfl
          · rw [Bool.not_eq_true] at hmod
            rw [if_neg (by simp [hmod])] at hb
            cases hb
      · exact ih3 e hr

/-- The loop first observing a terminal status at poll k: it stops with
poll_count k, emits heartbeats exactly at the earlier polls divisible by
10, and its last event is the terminal event for the k-th snapshot, with
nothing stream-closing before it. -/
theorem runPolls_term (snap : Nat → Snapshot) : ∀ (fuel : Nat) (last : RunStatus) (pc k : Nat),
    pc < k → k ≤ pc + fuel → isTerminal (snap k).status = true →
    (∀ m, pc < m → m < k → isTerminal (snap m).status = false) →
    (runPolls snap fuel last pc).2 = k ∧
    hbPolls (runPolls snap fuel last pc).1
      = (List.range' (pc + 1) (k - 1 - pc)).filter (fun p => p % 10 == 0) ∧
    ∃ pre, (runPolls snap fuel last pc).1 = pre ++ [termEventOf (snap k)] ∧
      ∀ e ∈ pre, isClosing e = false := by
  intro fuel
  induction fuel with
  | zero =>
    intro last pc k h1 h2 _ _
    exact absurd h2 (by omega)
  | succ fuel ih =>
    intro last pc k h1 h2 hterm hpre
    rw [runPolls]
    dsimp only
    by_cases hk : k = pc + 1
    · subst hk
      have h0 : pc + 1 - 1 - pc = 0 := by omega
      cases hs : ((snap (pc + 1)).status == RunStatus.completed) with
      | true =>
        simp only [hs, eq_self_iff_true, if_true]
        refine ⟨trivial, ?_, ?_⟩
        · rw [hbPolls_append, hbPolls_changed, h0]
          rfl
        · have htev : termEventOf (snap (pc + 1))
              = .completeEv (snap (pc + 1)).outputText := by
            unfold termEventOf
            rw [if_pos hs]
          rw [htev]
          exact ⟨_, rfl, closing_changed _ _⟩
      | false =>
        have hf : ((snap (pc + 1)).status == RunStatus.failed) = true := by
          unfold isTerminal at hterm
          rcases Bool.or_eq_true_iff.mp hterm with h | h
          · rw [hs] at h
            cases h
          · exact h
        simp only [hs, hf, Bool.false_eq_true, if_false, eq_self_iff_true, if_true]
        refine ⟨trivial, ?_, ?_⟩
        · rw [hbPolls_append, hbPolls_changed, h0]
          rfl
        · have htev : termEventOf (snap (pc + 1))
              = .errorEv (snap (pc + 1)).errorMessage := by
            unfold termEventOf
            simp only [hs, Bool.false_eq_true, if_false]
          rw [htev]
          exact ⟨_, rfl, closing_changed _ _⟩
    · have hnt : isTerminal (snap (pc + 1)).status = false := hpre (pc + 1) (by omega) (by omega)
      have hcf : ((snap (pc + 1)).status == RunStatus.completed) = false ∧
          ((snap (pc + 1)).status == RunStatus.failed) = false := by
        unfold isTerminal at hnt
        exact Bool.or_eq_false_iff.mp hnt
      simp only [hcf.1, hcf.2, Bool.false_eq_true, if_false]
      obtain ⟨ih1, ih2, pre', hpre', hcl'⟩ := ih (snap (pc + 1)).status (pc + 1) k
        (by omega) (by omega) hterm (fun m hm1 hm2 => hpre m (by omega) hm2)
      refine ⟨ih1, ?_, ?_⟩
      · rw [hbPolls_append, hbPolls_append, hbPolls_changed, ih2]
        have hsub : k - 1 - pc = (k - 1 - (pc + 1)) + 1 := by omega
        rw [hsub, List.range'_succ]
        by_cases hmod : ((pc + 1) % 10 == 0) = true
        · rw [if_pos hmod, List.filter_cons, if_pos hmod]
          rfl
        · rw [Bool.not_eq_true] at hmod
          rw [if_neg (by simp [hmod]), List.filter_cons, if_neg (by simp [hmod])]
          rfl
      · refine ⟨(if (snap (pc + 1)).status ≠ last then [SEvent.statusEv (snap (pc + 1)).status]
            else []) ++
            (if ((pc + 1) % 10 == 0) = true then [SEvent.heartbeatEv (pc + 1)] else []) ++
            pre', ?_, ?_⟩
        · rw [hpre']
          simp
        · intro e he
          rcases List.mem_append.mp he with hch | he2
          · rcases List.mem_append.mp hch with hc | hb
            · exact closing_changed _ _ e hc
            · by_cases hmod : ((pc + 1) % 10 == 0) = true
              · rw [if_pos hmod, List.mem_singleton] at hb
                subst hb
                rfl
              · rw [Bool.not_eq_true] at hmod
                rw [if_neg (by simp [hmod])] at hb
                cases hb
          · exact hcl' e he2

theorem hbPolls_timeout_if (c : Prop) [Decidable c] :
    hbPolls (if c then [SEvent.timeoutEv] else []) = [] := by
  split <;> rfl

theorem hbPolls_statusEv (s : RunStatus) : hbPolls [SEvent.statusEv s] = [] := rfl

theorem hbPolls_timeoutEv : hbPolls [SEvent.timeoutEv] = [] := rfl

theorem firstTerm_spec (snap : Nat → Snapshot) :
    (firstTerm snap = maxPolls + 1 ∧
      ∀ m, 1 ≤ m → m ≤ maxPolls → isTerminal (snap m).status = false) ∨
    (1 ≤ firstTerm snap ∧ firstTerm snap ≤ maxPolls ∧
      isTerminal (snap (firstTerm snap)).status = true ∧
      ∀ m, 1 ≤ m → m < firstTerm snap → isTerminal (snap m).status = false) := by
  unfold firstTerm
  cases hfind : (List.range' 1 maxPolls).find? (fun n => isTerminal (snap n).status) with
  | none =>
    left
    refine ⟨rfl, fun m hm1 hm2 => ?_⟩
    have hne := List.find?_eq_none.mp hfind m (by rw [List.mem_range'_1]; omega)
    exact Bool.eq_false_iff.mpr hne
  | some k =>
    right
    dsimp only
    obtain ⟨h1, h2, h3, h4⟩ := find?_range'_eq_some maxPolls 1 k hfind
    exact ⟨h2, by omega, h1, fun m hm1 hm2 => h4 m hm1 hm2⟩

/-- C7 (amended): over any observation stream for an existing run, a
heartbeat is emitted exactly at the polls divisible by 10 that precede the
first terminal observation; when a terminal status is first observed at
poll k within the 120-poll budget, the matching complete or error event
(carrying the output, respectively the error message) is emitted with no
stream-closing event before it, and the stream ends there — except in the
boundary case k = 120, where a timeout event additionally follows the
terminal event; when no terminal status is observed in the 120 polls, the
stream ends with a timeout event.  (The claim as frozen asserts the stream
always ends at the terminal event and that timeout implies no terminal
observation; the k = 120 case refutes both, see the counterexample.) -/
theorem stream_run_execution_events (snap : Nat → Snapshot) (run0 : Snapshot) :
    hbPolls (streamRunExecution snap run0)
      = (List.range' 1 (firstTerm snap - 1)).filter (fun p => p % 10 == 0) ∧
    (firstTerm snap ≤ maxPolls →
      ∃ pre, streamRunExecution snap run0
          = pre ++ [termEventOf (snap (firstTerm snap))] ++
            (if firstTerm snap = maxPolls then [SEvent.timeoutEv] else []) ∧
        ∀ e ∈ pre, isClosing e = false) ∧
    (firstTerm snap = maxPolls + 1 →
      ∃ pre, streamRunExecution snap run0 = pre ++ [SEvent.timeoutEv] ∧
        ∀ e ∈ pre, isClosing e = false) := by
  unfold streamRunExecution
  dsimp only
  rcases firstTerm_spec snap with ⟨hft, hall⟩ | ⟨hge, hle, hterm, hfirst⟩
  · obtain ⟨h1, h2, h3⟩ := runPolls_no_term snap maxPolls run0.status 0
      (fun m hm1 hm2 => hall m (by omega) (by omega))
    rw [h1, if_pos (show 0 + maxPolls ≥ maxPolls by omega), hft]
    refine ⟨?_, fun hcon => absurd (hft ▸ hcon) (by omega), fun _ => ?_⟩
    · rw [hbPolls_append, hbPolls_append, h2, hbPolls_statusEv, hbPolls_timeoutEv]
      simp
    · refine ⟨SEvent.statusEv run0.status :: (runPolls snap maxPolls run0.status 0).1,
        by simp, ?_⟩
      intro e he
      rcases List.mem_cons.mp he with hse | hev
      · subst hse
        rfl
      · exact h3 e hev
  · obtain ⟨h1, h2, pre', hpre', hcl'⟩ := runPolls_term snap maxPolls run0.status 0
      (firstTerm snap) (by omega) (by omega) hterm
      (fun m hm1 hm2 => hfirst m (by omega) hm2)
    rw [h1]
    have hif : (if firstTerm snap ≥ maxPolls then [SEvent.timeoutEv] else [])
        = (if firstTerm snap = maxPolls then [SEvent.timeoutEv] else []) := by
      by_cases hkm : firstTerm snap = maxPolls
      · rw [if_pos (by omega), if_pos hkm]
      · rw [if_neg (by omega), if_neg hkm]
    rw [hif]
    refine ⟨?_, fun _ => ?_, fun hcon => absurd hcon (by omega)⟩
    · rw [hbPolls_append, hbPolls_append, h2, hbPolls_timeout_if, hbPolls_statusEv]
      simp
    · refine ⟨SEvent.statusEv run0.status :: pre', ?_, ?_⟩
      · rw [hpre']
        simp
      · intro e he
        rcases List.mem_cons.mp he with hse | hev
        · subst hse
          rfl
        · exact hcl' e hev

/-- A status trace for which the run is first observed terminal exactly at
the 120th poll. -/
def snapCE : Nat → Snapshot := fun n =>
  if n < 120 then ⟨.running, none, none⟩ else ⟨.completed, some "done", none⟩

/-- C7 counterexample: when the run is first observed COMPLETED exactly at
the 120th poll, the stream emits the complete event but does not end with
it — a timeout event follows, although a terminal state was observed
within the 120-poll budget. -/
theorem stream_terminal_not_last_cex :
    SEvent.completeEv (some "done") ∈ streamRunExecution snapCE ⟨.pending, none, none⟩ ∧
    (streamRunExecution snapCE ⟨.pending, none, none⟩).getLast?
      = some SEvent.timeoutEv := by
  decide

end AgentOps
